import Mathlib

/-!
Shallow embedding of the telegraf-nextjs-dashboard query layer.

The repository is a Next.js dashboard over a PostgreSQL telemetry store.
We embed the two API route handlers:

* `GET /api/stats` (src/src/app/api/stats/route.ts, paginated variant,
  lines 104-260): per-page host summaries merged from four metric tables,
  a global summary and a pagination envelope;
* `GET /api/history` (src/src/app/api/history/route.ts): last 20 samples
  of one metric for one host, oldest first.

The store is modelled as four lists of rows (tables `client_network`,
`cpu`, `mem`, `system`).  Timestamps are integers (milliseconds since
epoch, as produced by `new Date(...).getTime()`), numeric telemetry
values are rationals (shallow model of JS doubles; none of the claims
depends on binary floating-point artifacts), and SQL-nullable columns
are modelled by an explicit value type with a `null` constructor.
-/

/-- A value read from a nullable numeric column (`load1`, `load5`,
`load15`).  `null` models SQL NULL as delivered to JS. -/
inductive PgVal where
  | null : PgVal
  | num : ℚ → PgVal
deriving DecidableEq, Repr

/-- A row of the `client_network` table as selected by the routes:
`host, "IP_Address" as ip, "MacAddress" as mac, time`. -/
structure NetRow where
  host : String
  ip : String
  mac : String
  time : Int
deriving DecidableEq, Repr

/-- A row of the `cpu` table as selected by the routes: the `cpu` tag
column (the routes filter on `cpu = 'cpu-total'`), the idle/user/system/
iowait percentages and the timestamp. -/
structure CpuRow where
  host : String
  cpu : String
  usage_idle : ℚ
  usage_user : ℚ
  usage_system : ℚ
  usage_iowait : ℚ
  time : Int
deriving DecidableEq, Repr

/-- A row of the `mem` table as selected by the routes. -/
structure MemRow where
  host : String
  used_percent : ℚ
  available_percent : ℚ
  total : ℚ
  used : ℚ
  time : Int
deriving DecidableEq, Repr

/-- A row of the `system` table as selected by the routes.  `uptime` is
the seconds counter (`parseInt(r.uptime)` in the route; we model the
already-parsed integer), the three load averages are nullable. -/
structure SysRow where
  host : String
  uptime : Nat
  load1 : PgVal
  load5 : PgVal
  load15 : PgVal
  time : Int
deriving DecidableEq, Repr

/-- The read-only telemetry store: the four tables the routes query. -/
structure Db where
  network : List NetRow
  cpu : List CpuRow
  mem : List MemRow
  system : List SysRow
deriving Repr

/-! ### JS numeric helpers -/

/-- JS `Math.round`: round half toward positive infinity. -/
def jsRound (q : ℚ) : Int := ⌊q + 1 / 2⌋

/-- JS `parseFloat` applied to a nullable column value:
`parseFloat(null)` is `NaN`; a numeric value parses to itself. -/
inductive JsNum where
  | nan : JsNum
  | val : ℚ → JsNum
deriving DecidableEq, Repr

def pgParseFloat : PgVal → JsNum
  | .null => .nan
  | .num q => .val q

/-- The decimal digit character for `d < 10` (the only arguments the
renderer passes). -/
def decDigit (d : Nat) : Char :=
  match d with
  | 0 => '0' | 1 => '1' | 2 => '2' | 3 => '3' | 4 => '4'
  | 5 => '5' | 6 => '6' | 7 => '7' | 8 => '8' | _ => '9'

/-- Decimal digit list of a natural number (most significant first),
with explicit fuel so the definition is structural and evaluates inside
the kernel.  `n + 1` units of fuel always suffice since the argument
shrinks by a factor of ten each step. -/
def natCharsCore : Nat → Nat → List Char
  | 0, _ => []
  | fuel + 1, n =>
      if n < 10 then [decDigit n]
      else natCharsCore fuel (n / 10) ++ [decDigit (n % 10)]

/-- Decimal digit list of a natural number (most significant first).
Used to render numbers without relying on `toString`
internals, so that digit-shape facts are provable. -/
def natChars (n : Nat) : List Char := natCharsCore (n + 1) n

/-- Render `n / 100` as a fixed-point decimal with exactly two digits
after the point (the shape `x.toFixed(2)` produces for nonnegative
finite `x`). -/
def fixed2OfNat (n : Nat) : String :=
  String.mk (natChars (n / 100)) ++ "." ++
    String.mk [decDigit (n % 100 / 10), decDigit (n % 100 % 10)]

/-- JS `x.toFixed(2)`: `NaN` renders as `"NaN"`, a finite value is
rounded to two decimals (half away from zero on the decimal scale;
the claims do not exercise binary-float tie behaviour). -/
def jsToFixed2 : JsNum → String
  | .nan => "NaN"
  | .val q =>
      if q < 0 then "-" ++ fixed2OfNat (⌊-q * 100 + 1 / 2⌋).toNat
      else fixed2OfNat (⌊q * 100 + 1 / 2⌋).toNat

/-- `parseFloat(r.loadN).toFixed(2)` from route.ts lines 233-235. -/
def loadFmt (v : PgVal) : String := jsToFixed2 (pgParseFloat v)

/-- Uptime formatting from route.ts lines 228-231:
`Math.floor(s / 86400)` days, `Math.floor((s % 86400) / 3600)` hours. -/
def uptimeFmt (s : Nat) : String :=
  toString (s / (24 * 3600)) ++ "d " ++ toString (s % (24 * 3600) / 3600) ++ "h"

/-! ### The latest-sample resolver

`SELECT DISTINCT ON (host) ... ORDER BY host, time DESC` returns, for
each host, a row with the maximal timestamp (ties broken arbitrarily;
spec section 4.2 accepts either row), the per-host results ordered by
host ascending. -/

/-- Pick a row of maximal `time` (`tm` projection); earlier rows win
exact ties, matching one admissible DISTINCT ON tie-break. -/
def latestBy (tm : α → Int) : List α → Option α
  | [] => none
  | r :: rs =>
      match latestBy tm rs with
      | none => some r
      | some b => if tm r < tm b then some b else some r

/-- The distinct hosts of a row list, sorted ascending (the
`ORDER BY host` part of the DISTINCT ON queries). -/
def sortedHosts (hs : List String) : List String :=
  hs.dedup.insertionSort (· ≤ ·)

/-- `SELECT DISTINCT ON (host) ... ORDER BY host, time DESC`: one
latest row per host, ordered by host ascending. -/
def distinctOn (hostOf : α → String) (tm : α → Int) (rows : List α) : List α :=
  (sortedHosts (rows.map hostOf)).filterMap
    (fun h => latestBy tm (rows.filter (fun r => hostOf r == h)))

/-! ### The stats aggregator (route.ts lines 104-260) -/

/-- `count(DISTINCT host) FROM client_network`. -/
def totalHostsD (db : Db) : Nat := ((db.network.map (·.host)).dedup).length

/-- `count(DISTINCT host) FILTER (WHERE time > now() - interval '5 minutes')`. -/
def onlineHostsD (db : Db) (now : Int) : Nat :=
  (((db.network.filter (fun r => decide (now - 300000 < r.time))).map (·.host)).dedup).length

/-- SQL `AVG` of a list of values; `NULL` on the empty list is turned
into `0` by the route (`parseFloat(row.avg_cpu || '0')`), so the model
returns `0` directly there. -/
def avgOrZero (xs : List ℚ) : ℚ :=
  if xs.isEmpty then 0 else xs.sum / xs.length

/-- `(SELECT AVG(100 - usage_idle) FROM cpu WHERE cpu = 'cpu-total' AND
time > now() - interval '5 minutes')`, averaged over matching rows. -/
def avgCpuD (db : Db) (now : Int) : ℚ :=
  avgOrZero ((db.cpu.filter
    (fun r => r.cpu == "cpu-total" && decide (now - 300000 < r.time))).map
    (fun r => 100 - r.usage_idle))

/-- `(SELECT AVG(used_percent) FROM mem WHERE time > now() - interval
'5 minutes')`. -/
def avgRamD (db : Db) (now : Int) : ℚ :=
  avgOrZero ((db.mem.filter (fun r => decide (now - 300000 < r.time))).map
    (·.used_percent))

/-- `Math.ceil(totalHosts / limit)` for natural operands (route.ts line
126); exact for `limit ≥ 1`. -/
def totalPagesD (db : Db) (limit : Nat) : Nat :=
  (totalHostsD db + limit - 1) / limit

/-- The page's network rows: the DISTINCT ON query with
`LIMIT limit OFFSET (page-1)*limit` (route.ts lines 129-138). -/
def networkPage (db : Db) (page limit : Nat) : List NetRow :=
  ((distinctOn (·.host) (·.time) db.network).drop ((page - 1) * limit)).take limit

/-- One merged host summary (route.ts lines 193-238).  The identity
fields always come from the page's network row; the per-family fields
are present exactly when the family's DISTINCT ON result has a row for
this host.  Since DISTINCT ON yields at most one row per host, the
JS `forEach` update of `hostsMap[r.host]` is equivalent to this
per-host lookup. -/
structure HostSummary where
  hostname : String
  ip : String
  mac : String
  status : String
  lastUpdate : Int
  cpu : Option Int
  cpuBreakdown : Option (Int × Int × Int)
  ram : Option Int
  ramAvailablePercent : Option Int
  ramTotal : Option ℚ
  ramUsed : Option ℚ
  uptime : Option String
  load : Option (String × String × String)
deriving DecidableEq, Repr

def buildHostSummary (now : Int) (cpuRes : List CpuRow) (memRes : List MemRow)
    (sysRes : List SysRow) (r : NetRow) : HostSummary :=
  let c := cpuRes.find? (fun x => x.host == r.host)
  let m := memRes.find? (fun x => x.host == r.host)
  let s := sysRes.find? (fun x => x.host == r.host)
  { hostname := r.host
    ip := r.ip
    mac := r.mac
    status := if now - r.time < 300000 then "online" else "offline"
    lastUpdate := r.time
    cpu := c.map (fun x => jsRound (100 - x.usage_idle))
    cpuBreakdown := c.map (fun x =>
      (jsRound x.usage_user, jsRound x.usage_system, jsRound x.usage_iowait))
    ram := m.map (fun x => jsRound x.used_percent)
    ramAvailablePercent := m.map (fun x => jsRound x.available_percent)
    ramTotal := m.map (·.total)
    ramUsed := m.map (·.used)
    uptime := s.map (fun x => uptimeFmt x.uptime)
    load := s.map (fun x => (loadFmt x.load1, loadFmt x.load5, loadFmt x.load15)) }

/-- The `summary` object of the response.  In the empty-page early
return (route.ts lines 140-146) the JS object literal carries no
`avgCpu`/`avgRam` keys, hence the `Option`. -/
structure SummaryAgg where
  total : Nat
  online : Nat
  offline : Nat
  avgCpu : Option Int
  avgRam : Option Int
deriving DecidableEq, Repr

/-- The `pagination` object; `limit` is absent in the empty-page early
return. -/
structure PaginationEnv where
  totalHosts : Nat
  totalPages : Nat
  currentPage : Nat
  limit : Option Nat
deriving DecidableEq, Repr

structure StatsResponse where
  data : List HostSummary
  summary : SummaryAgg
  pagination : PaginationEnv
deriving DecidableEq, Repr

/-- `const hostnames = networkRes.rows.map(r => r.host)`. -/
def pageHostnames (db : Db) (page limit : Nat) : List String :=
  (networkPage db page limit).map (·.host)

/-- Query 3: latest CPU rows for the page's hosts. -/
def cpuResD (db : Db) (page limit : Nat) : List CpuRow :=
  distinctOn (·.host) (·.time)
    (db.cpu.filter (fun r =>
      r.cpu == "cpu-total" && (pageHostnames db page limit).contains r.host))

/-- Query 4: latest memory rows for the page's hosts. -/
def memResD (db : Db) (page limit : Nat) : List MemRow :=
  distinctOn (·.host) (·.time)
    (db.mem.filter (fun r => (pageHostnames db page limit).contains r.host))

/-- Query 5: latest system rows for the page's hosts. -/
def sysResD (db : Db) (page limit : Nat) : List SysRow :=
  distinctOn (·.host) (·.time)
    (db.system.filter (fun r => (pageHostnames db page limit).contains r.host))

/-- The merged `data` array (route.ts lines 192-241). -/
def statsData (db : Db) (now : Int) (page limit : Nat) : List HostSummary :=
  (networkPage db page limit).map
    (buildHostSummary now (cpuResD db page limit) (memResD db page limit)
      (sysResD db page limit))

/-- The body computed by the `try` block of the stats route for a
request `?page=&limit=` evaluated at instant `now`. -/
def statsBody (db : Db) (now : Int) (page limit : Nat) : StatsResponse :=
  let totalHosts := totalHostsD db
  let onlineHosts := onlineHostsD db now
  let avgCpu := jsRound (avgCpuD db now)
  let avgRam := jsRound (avgRamD db now)
  let offlineHosts := totalHosts - onlineHosts
  let totalPages := totalPagesD db limit
  let networkRows := networkPage db page limit
  if networkRows.isEmpty then
    { data := []
      summary := { total := totalHosts, online := onlineHosts,
                   offline := offlineHosts, avgCpu := none, avgRam := none }
      pagination := { totalHosts := totalHosts, totalPages := totalPages,
                      currentPage := page, limit := none } }
  else
    { data := statsData db now page limit
      summary := { total := totalHosts, online := onlineHosts,
                   offline := offlineHosts, avgCpu := some avgCpu,
                   avgRam := some avgRam }
      pagination := { totalHosts := totalHosts, totalPages := totalPages,
                      currentPage := page, limit := some limit } }

/-- The route's observable outcome: the success JSON or the `catch`
branch's HTTP 500.  Store failures are external events not modelled by
the pure embedding, so `statsGET` always reaches `ok`. -/
inductive StatsResult where
  | ok : StatsResponse → StatsResult
  | dbError : StatsResult
deriving DecidableEq, Repr

def statsGET (db : Db) (now : Int) (page limit : Nat) : StatsResult :=
  .ok (statsBody db now page limit)

/-! ### The history resolver (src/src/app/api/history/route.ts) -/

/-- One chart point.  The route renders the timestamp with
`toLocaleTimeString` (display-only, spec section 4.5 calls it not
round-trippable); the model keeps the raw timestamp so chronological
statements are expressible, and the rounded usage value. -/
structure HistPoint where
  time : Int
  usage : Int
deriving DecidableEq, Repr

/-- `ORDER BY time DESC` as a relation on `cpu` rows. -/
def cpuTimeDesc (a b : CpuRow) : Prop := b.time ≤ a.time

instance : DecidableRel cpuTimeDesc := fun a b =>
  inferInstanceAs (Decidable (b.time ≤ a.time))

instance : IsTotal CpuRow cpuTimeDesc := ⟨fun a b => le_total b.time a.time⟩

instance : IsTrans CpuRow cpuTimeDesc :=
  ⟨fun _ _ _ hab hbc => le_trans hbc hab⟩

/-- `ORDER BY time DESC` as a relation on `mem` rows. -/
def memTimeDesc (a b : MemRow) : Prop := b.time ≤ a.time

instance : DecidableRel memTimeDesc := fun a b =>
  inferInstanceAs (Decidable (b.time ≤ a.time))

instance : IsTotal MemRow memTimeDesc := ⟨fun a b => le_total b.time a.time⟩

instance : IsTrans MemRow memTimeDesc :=
  ⟨fun _ _ _ hab hbc => le_trans hbc hab⟩

/-- `ORDER BY time DESC LIMIT 20` rows for the requested metric, then
`rows.reverse().map(...)` (route lines 21-45). -/
def historyPoints (db : Db) (host : String) (typ : String) : List HistPoint :=
  if typ == "cpu" then
    let rows := ((db.cpu.filter
      (fun r => r.host == host && r.cpu == "cpu-total")).insertionSort cpuTimeDesc).take 20
    rows.reverse.map (fun r => { time := r.time, usage := jsRound (100 - r.usage_idle) })
  else
    let rows := ((db.mem.filter (fun r => r.host == host)).insertionSort memTimeDesc).take 20
    rows.reverse.map (fun r => { time := r.time, usage := jsRound r.used_percent })

/-- Outcome of the history route together with whether any store access
happened (`new Client`/`connect`/`query`).  The missing-`host` check at
line 9 returns HTTP 400 before the client is even constructed. -/
inductive HistResult where
  | badRequest : HistResult
  | ok : List HistPoint → HistResult
deriving DecidableEq, Repr

structure HistOutcome where
  result : HistResult
  storeAccessed : Bool
deriving DecidableEq, Repr

/-- The history route.  `host` is `searchParams.get('host')` (`none`
when the parameter is absent); JS `!host` is also true for the empty
string.  `typ` defaults to `"cpu"` upstream of this function
(`searchParams.get('type') || 'cpu'`). -/
def historyGET (db : Db) (host : Option String) (typ : String) : HistOutcome :=
  match host with
  | none => { result := .badRequest, storeAccessed := false }
  | some h =>
      if h == "" then { result := .badRequest, storeAccessed := false }
      else { result := .ok (historyPoints db h typ), storeAccessed := true }

/-! ### The response cache (spec section 4.4)

Modelled from the spec: the repository iteration of `/api/stats` that
adds the single-slot 15-second cache (and the pool diagnostics the
client in part_003 consumes) is not among the files under src/; only
its client is.  Per spec section 4.4 the cache is a single in-process
slot `{data, timestamp}` keyed implicitly by `(page=1, limit=default)`;
a qualifying request returns a non-expired entry verbatim without
touching the store, otherwise computes fresh, stores `{result, now}`
and returns it; non-qualifying requests always bypass the cache. -/

def CACHE_TTL : Int := 15000

structure CacheState where
  slot : Option (StatsResponse × Int)
deriving DecidableEq, Repr

structure CacheStep where
  payload : StatsResponse
  state : CacheState
  storeAccessed : Bool
deriving DecidableEq, Repr

/-- Modelled from the spec: the cached stats request (spec section 4.4
over the section 4.3 aggregator). -/
def cachedStatsGET (db : Db) (st : CacheState) (now : Int) (page limit : Nat) :
    CacheStep :=
  if page = 1 ∧ limit = 10 then
    match st.slot with
    | some (payload, t) =>
        if now - t < CACHE_TTL then
          { payload := payload, state := st, storeAccessed := false }
        else
          let fresh := statsBody db now page limit
          { payload := fresh, state := ⟨some (fresh, now)⟩, storeAccessed := true }
    | none =>
        let fresh := statsBody db now page limit
        { payload := fresh, state := ⟨some (fresh, now)⟩, storeAccessed := true }
  else
    { payload := statsBody db now page limit, state := st, storeAccessed := true }

/-! ### Helper lemmas about the latest-sample resolver -/

theorem latestBy_mem {tm : α → Int} {l : List α} {r : α}
    (h : latestBy tm l = some r) : r ∈ l := by
  induction l with
  | nil => simp [latestBy] at h
  | cons x xs ih =>
      unfold latestBy at h
      cases hx : latestBy tm xs with
      | none =>
          rw [hx] at h
          dsimp only at h
          simp only [Option.some.injEq] at h
          rw [← h]
          exact List.mem_cons_self x xs
      | some b =>
          rw [hx] at h
          dsimp only at h
          by_cases hc : tm x < tm b
          · rw [if_pos hc] at h
            simp only [Option.some.injEq] at h
            exact List.mem_cons_of_mem x (ih (by rw [hx, h]))
          · rw [if_neg hc] at h
            simp only [Option.some.injEq] at h
            rw [← h]
            exact List.mem_cons_self x xs

theorem latestBy_eq_none {tm : α → Int} {l : List α} :
    latestBy tm l = none ↔ l = [] := by
  cases l with
  | nil => simp [latestBy]
  | cons x xs =>
      constructor
      · intro h
        exfalso
        unfold latestBy at h
        cases hx : latestBy tm xs with
        | none =>
            rw [hx] at h
            simp at h
        | some b =>
            rw [hx] at h
            dsimp only at h
            split at h <;> simp at h
      · intro h
        simp at h

/-! ### Helper lemmas about `sortedHosts` and `distinctOn` -/

theorem sortedHosts_perm (hs : List String) : List.Perm (sortedHosts hs) hs.dedup :=
  List.perm_insertionSort _ _

theorem mem_sortedHosts {h : String} {hs : List String} :
    h ∈ sortedHosts hs ↔ h ∈ hs :=
  ((sortedHosts_perm hs).mem_iff).trans List.mem_dedup

theorem sortedHosts_sorted (hs : List String) :
    List.Sorted (· ≤ ·) (sortedHosts hs) :=
  List.sorted_insertionSort _ _

theorem sortedHosts_length (hs : List String) :
    (sortedHosts hs).length = hs.dedup.length :=
  (sortedHosts_perm hs).length_eq

theorem filterMap_latest_map {α : Type} {hostOf : α → String} {tm : α → Int}
    (rows : List α) (hs : List String)
    (hall : ∀ h ∈ hs, ∃ row ∈ rows, hostOf row = h) :
    (hs.filterMap
      (fun h => latestBy tm (rows.filter (fun r => hostOf r == h)))).map hostOf = hs := by
  induction hs with
  | nil => simp
  | cons h t ih =>
      obtain ⟨row, hrow, hh⟩ := hall h (List.mem_cons_self h t)
      have hmemf : row ∈ rows.filter (fun r => hostOf r == h) := by
        rw [List.mem_filter]
        exact ⟨hrow, by simp [hh]⟩
      cases hlb : latestBy tm (rows.filter (fun r => hostOf r == h)) with
      | none =>
          rw [latestBy_eq_none] at hlb
          rw [hlb] at hmemf
          simp at hmemf
      | some r =>
          have hr : hostOf r = h := by
            have hm := latestBy_mem hlb
            rw [List.mem_filter] at hm
            simpa using hm.2
          simp only [List.filterMap_cons, hlb, List.map_cons, hr]
          rw [ih (fun x hx => hall x (List.mem_cons_of_mem _ hx))]

theorem distinctOn_map {α : Type} (hostOf : α → String) (tm : α → Int)
    (rows : List α) :
    (distinctOn hostOf tm rows).map hostOf = sortedHosts (rows.map hostOf) := by
  unfold distinctOn
  apply filterMap_latest_map
  intro h hh
  rw [mem_sortedHosts] at hh
  obtain ⟨row, hrow, rfl⟩ := List.mem_map.mp hh
  exact ⟨row, hrow, rfl⟩

theorem distinctOn_length {α : Type} (hostOf : α → String) (tm : α → Int)
    (rows : List α) :
    (distinctOn hostOf tm rows).length = ((rows.map hostOf).dedup).length := by
  have := congrArg List.length (distinctOn_map hostOf tm rows)
  rw [List.length_map] at this
  rw [this, sortedHosts_length]

/-! ### Structure of the stats response -/

theorem networkPage_map_host (db : Db) (page limit : Nat) :
    (networkPage db page limit).map (·.host) =
      ((sortedHosts (db.network.map (·.host))).drop ((page - 1) * limit)).take limit := by
  unfold networkPage
  rw [List.map_take, List.map_drop, distinctOn_map]

theorem statsData_map_hostname (db : Db) (now : Int) (page limit : Nat) :
    (statsData db now page limit).map (·.hostname) =
      (networkPage db page limit).map (·.host) := by
  unfold statsData
  rw [List.map_map]
  rfl

theorem statsBody_data (db : Db) (now : Int) (page limit : Nat) :
    (statsBody db now page limit).data = statsData db now page limit := by
  unfold statsBody
  dsimp only
  split
  · next hemp =>
      rw [List.isEmpty_iff] at hemp
      simp [statsData, hemp]
  · rfl

theorem statsBody_summary_total (db : Db) (now : Int) (page limit : Nat) :
    (statsBody db now page limit).summary.total = totalHostsD db := by
  unfold statsBody
  dsimp only
  split <;> rfl

theorem statsBody_pagination_totalPages (db : Db) (now : Int) (page limit : Nat) :
    (statsBody db now page limit).pagination.totalPages = totalPagesD db limit := by
  unfold statsBody
  dsimp only
  split <;> rfl

/-! ### Example store used to instantiate hypotheses of the claim
theorems on concrete inputs -/

def exDb1 : Db :=
  { network := [⟨"alpha", "10.0.0.1", "aa:bb:cc", 1000⟩]
    cpu := [⟨"alpha", "cpu-total", 90, 5, 3, 2, 1000⟩]
    mem := [⟨"alpha", 40, 60, 1000, 400, 1000⟩]
    system := [⟨"alpha", 90000, .null, .null, .null, 1000⟩] }

/-! ### Claim theorems -/

/-- C6: for every host in the /api/stats response, `status` is
`"online"` iff the request time minus the host's `lastUpdate` (its
latest network-identity timestamp) is strictly below 300000 ms, and
`"offline"` otherwise. -/
theorem stats_status_online_iff (db : Db) (now : Int) (page limit : Nat)
    (s : HostSummary) (hs : s ∈ (statsBody db now page limit).data) :
    (s.status = "online" ↔ now - s.lastUpdate < 300000) ∧
    (s.status = "offline" ↔ ¬ now - s.lastUpdate < 300000) := by
  rw [statsBody_data] at hs
  obtain ⟨r, _, rfl⟩ := List.mem_map.mp hs
  unfold buildHostSummary
  dsimp only
  by_cases h : now - r.time < 300000
  · rw [if_pos h]
    refine ⟨⟨fun _ => h, fun _ => rfl⟩, ?_, ?_⟩
    · intro he
      exact absurd he (by decide)
    · intro hn
      exact absurd h hn
  · rw [if_neg h]
    refine ⟨⟨?_, fun hlt => absurd hlt h⟩, fun _ => h, fun _ => rfl⟩
    intro he
    exact absurd he (by decide)

theorem stats_status_online_iff_witness :
    (∃ s ∈ (statsBody exDb1 400000 1 10).data,
      (s.status = "online" ↔ (400000 : Int) - s.lastUpdate < 300000) ∧
      (s.status = "offline" ↔ ¬ (400000 : Int) - s.lastUpdate < 300000)) := by
  obtain ⟨s, hs⟩ : ∃ s, s ∈ (statsBody exDb1 400000 1 10).data :=
    ⟨_, List.head_mem (l := (statsBody exDb1 400000 1 10).data) (by decide)⟩
  exact ⟨s, hs, stats_status_online_iff exDb1 400000 1 10 s hs⟩

/-- C4: the host summaries of the /api/stats data array are ordered by
hostname ascending and are exactly the contiguous slice, at offset
`(page-1)*limit` and of length at most `limit`, of the full distinct
host set ordered by hostname ascending. -/
theorem stats_data_sorted_slice (db : Db) (now : Int) (page limit : Nat) :
    (statsBody db now page limit).data.map (·.hostname) =
      ((sortedHosts (db.network.map (·.host))).drop ((page - 1) * limit)).take limit ∧
    List.Sorted (· ≤ ·) ((statsBody db now page limit).data.map (·.hostname)) := by
  have hmap : (statsBody db now page limit).data.map (·.hostname) =
      ((sortedHosts (db.network.map (·.host))).drop ((page - 1) * limit)).take limit := by
    rw [statsBody_data, statsData_map_hostname, networkPage_map_host]
  refine ⟨hmap, ?_⟩
  rw [hmap]
  exact List.Pairwise.sublist
    ((List.take_sublist _ _).trans (List.drop_sublist _ _))
    (sortedHosts_sorted _)

/-- C10: every element of the /api/stats data array originates from a
network-identity row of the requested page, carrying its hostname, ip,
mac, lastUpdate and a derived status; latest CPU/memory/system rows for
hosts outside the identity page never create entries. -/
theorem stats_data_from_identity_page (db : Db) (now : Int) (page limit : Nat) :
    ((statsBody db now page limit).data.map (·.hostname) =
      (networkPage db page limit).map (·.host)) ∧
    (∀ s ∈ (statsBody db now page limit).data,
      ∃ r ∈ networkPage db page limit,
        s.hostname = r.host ∧ s.ip = r.ip ∧ s.mac = r.mac ∧
        s.lastUpdate = r.time ∧ (s.status = "online" ∨ s.status = "offline")) := by
  constructor
  · rw [statsBody_data, statsData_map_hostname]
  · intro s hsmem
    rw [statsBody_data] at hsmem
    obtain ⟨r, hr, rfl⟩ := List.mem_map.mp hsmem
    refine ⟨r, hr, rfl, rfl, rfl, rfl, ?_⟩
    unfold buildHostSummary
    dsimp only
    by_cases h : now - r.time < 300000
    · left
      rw [if_pos h]
    · right
      rw [if_neg h]

/-- C7: when the requested page's host set is empty, /api/stats returns
a success envelope with an empty data array and the already-computed
summary and pagination objects (which omit avgCpu/avgRam and limit in
this early return), not an error. -/
theorem stats_empty_page_ok (db : Db) (now : Int) (page limit : Nat)
    (h : totalHostsD db ≤ (page - 1) * limit) :
    statsGET db now page limit = .ok
      { data := []
        summary := { total := totalHostsD db, online := onlineHostsD db now,
                     offline := totalHostsD db - onlineHostsD db now,
                     avgCpu := none, avgRam := none }
        pagination := { totalHosts := totalHostsD db,
                        totalPages := totalPagesD db limit,
                        currentPage := page, limit := none } } := by
  have hlen : (distinctOn (·.host) (·.time) db.network).length = totalHostsD db := by
    rw [distinctOn_length]
    rfl
  have hemp : networkPage db page limit = [] := by
    unfold networkPage
    rw [List.drop_eq_nil_of_le (by rw [hlen]; exact h)]
    exact List.take_nil
  unfold statsGET statsBody
  dsimp only
  rw [if_pos (by rw [hemp]; rfl)]

theorem stats_empty_page_ok_witness :
    statsGET exDb1 400000 3 10 = .ok
      { data := []
        summary := { total := totalHostsD exDb1, online := onlineHostsD exDb1 400000,
                     offline := totalHostsD exDb1 - onlineHostsD exDb1 400000,
                     avgCpu := none, avgRam := none }
        pagination := { totalHosts := totalHostsD exDb1,
                        totalPages := totalPagesD exDb1 10,
                        currentPage := 3, limit := none } } :=
  stats_empty_page_ok exDb1 400000 3 10 (by decide)

/-- C9: an /api/history request with the `host` parameter absent
returns the HTTP 400 error result and performs no store access. -/
theorem history_missing_host_no_store (db : Db) (typ : String) :
    historyGET db none typ = { result := .badRequest, storeAccessed := false } :=
  rfl

/-- Natural ceiling division `(a + b - 1) / b` (the route's
`Math.ceil(totalHosts / limit)`) agrees with the rational ceiling. -/
theorem ceilDiv_cast (a b : Nat) (hb : 0 < b) :
    (((a + b - 1) / b : Nat) : ℤ) = ⌈(a : ℚ) / (b : ℚ)⌉ := by
  have hb' : (0 : ℚ) < (b : ℚ) := by exact_mod_cast hb
  symm
  rw [Int.ceil_eq_iff]
  have key := Nat.div_add_mod (a + b - 1) b
  have hmod : (a + b - 1) % b < b := Nat.mod_lt _ hb
  set q := (a + b - 1) / b with hqdef
  set r := (a + b - 1) % b with hrdef
  set m := b * q with hmdef
  have h1 : a ≤ m := by omega
  have h2 : m < a + b := by omega
  have hqm : ((q : ℚ)) * (b : ℚ) = (m : ℚ) := by
    rw [hmdef]
    push_cast
    ring
  constructor
  · push_cast
    rw [lt_div_iff₀ hb']
    have h2' : (m : ℚ) < (a : ℚ) + b := by exact_mod_cast h2
    nlinarith [hqm, h2']
  · push_cast
    rw [div_le_iff₀ hb']
    have h1' : (a : ℚ) ≤ (m : ℚ) := by exact_mod_cast h1
    linarith [hqm]

/-- C5: for every valid page and limit, `pagination.totalPages` equals
`ceil(totalHosts / limit)` and the data array holds at most `limit`
entries. -/
theorem stats_pagination_ceil (db : Db) (now : Int) (page limit : Nat)
    (h : 0 < limit) :
    (((statsBody db now page limit).pagination.totalPages : ℤ) =
      ⌈(totalHostsD db : ℚ) / (limit : ℚ)⌉) ∧
    (statsBody db now page limit).data.length ≤ limit := by
  constructor
  · rw [statsBody_pagination_totalPages]
    unfold totalPagesD
    exact ceilDiv_cast (totalHostsD db) limit h
  · rw [statsBody_data]
    unfold statsData
    rw [List.length_map]
    unfold networkPage
    exact List.length_take_le _ _

theorem stats_pagination_ceil_witness :
    (((statsBody exDb1 0 1 10).pagination.totalPages : ℤ) =
      ⌈(totalHostsD exDb1 : ℚ) / (10 : ℚ)⌉) ∧
    (statsBody exDb1 0 1 10).data.length ≤ 10 :=
  stats_pagination_ceil exDb1 0 1 10 (by decide)

/-- The avgCpu field of the summary, extracted from the branch
structure of the route. -/
theorem statsBody_summary_avgCpu (db : Db) (now : Int) (page limit : Nat) :
    (statsBody db now page limit).summary.avgCpu =
      if (networkPage db page limit).isEmpty then none
      else some (jsRound (avgCpuD db now)) := by
  unfold statsBody
  dsimp only
  split
  · rfl
  · rfl

theorem statsBody_summary_avgRam (db : Db) (now : Int) (page limit : Nat) :
    (statsBody db now page limit).summary.avgRam =
      if (networkPage db page limit).isEmpty then none
      else some (jsRound (avgRamD db now)) := by
  unfold statsBody
  dsimp only
  split
  · rfl
  · rfl

/-- C2: `summary.avgCpu`/`avgRam` average only observations inside the
5-minute freshness window: appending CPU/memory rows whose timestamps
are stale (at least 5 minutes old at request time) leaves both averages
unchanged, so a host whose only data is stale cannot shift them. -/
theorem stats_avg_ignores_stale (db : Db) (now : Int) (page limit : Nat)
    (extraCpu : List CpuRow) (extraMem : List MemRow)
    (hc : ∀ r ∈ extraCpu, r.time ≤ now - 300000)
    (hm : ∀ r ∈ extraMem, r.time ≤ now - 300000) :
    ((statsBody { db with cpu := db.cpu ++ extraCpu, mem := db.mem ++ extraMem }
        now page limit).summary.avgCpu
      = (statsBody db now page limit).summary.avgCpu) ∧
    ((statsBody { db with cpu := db.cpu ++ extraCpu, mem := db.mem ++ extraMem }
        now page limit).summary.avgRam
      = (statsBody db now page limit).summary.avgRam) := by
  have hcf : extraCpu.filter
      (fun r => r.cpu == "cpu-total" && decide (now - 300000 < r.time)) = [] := by
    rw [List.filter_eq_nil_iff]
    intro r hr
    simp only [Bool.and_eq_true, beq_iff_eq, decide_eq_true_eq, not_and]
    intro _
    have := hc r hr
    omega
  have hmf : extraMem.filter (fun r => decide (now - 300000 < r.time)) = [] := by
    rw [List.filter_eq_nil_iff]
    intro r hr
    simp only [decide_eq_true_eq]
    have := hm r hr
    omega
  have hacpu : avgCpuD { db with cpu := db.cpu ++ extraCpu, mem := db.mem ++ extraMem } now
      = avgCpuD db now := by
    unfold avgCpuD
    rw [show ({ db with cpu := db.cpu ++ extraCpu, mem := db.mem ++ extraMem } : Db).cpu
      = db.cpu ++ extraCpu from rfl]
    rw [List.filter_append, hcf, List.append_nil]
  have haram : avgRamD { db with cpu := db.cpu ++ extraCpu, mem := db.mem ++ extraMem } now
      = avgRamD db now := by
    unfold avgRamD
    rw [show ({ db with cpu := db.cpu ++ extraCpu, mem := db.mem ++ extraMem } : Db).mem
      = db.mem ++ extraMem from rfl]
    rw [List.filter_append, hmf, List.append_nil]
  have hnet : networkPage { db with cpu := db.cpu ++ extraCpu, mem := db.mem ++ extraMem }
      page limit = networkPage db page limit := rfl
  constructor
  · rw [statsBody_summary_avgCpu, statsBody_summary_avgCpu, hnet, hacpu]
  · rw [statsBody_summary_avgRam, statsBody_summary_avgRam, hnet, haram]

def staleCpuRow : CpuRow := ⟨"alpha", "cpu-total", 20, 1, 1, 1, -5⟩

theorem stats_avg_ignores_stale_witness :
    (∀ r ∈ [staleCpuRow], r.time ≤ (400000 : Int) - 300000) ∧
    (∀ r ∈ ([] : List MemRow), r.time ≤ (400000 : Int) - 300000) ∧
    ((statsBody { exDb1 with cpu := exDb1.cpu ++ [staleCpuRow], mem := exDb1.mem ++ [] }
        400000 1 10).summary.avgCpu
      = (statsBody exDb1 400000 1 10).summary.avgCpu) ∧
    ((statsBody { exDb1 with cpu := exDb1.cpu ++ [staleCpuRow], mem := exDb1.mem ++ [] }
        400000 1 10).summary.avgRam
      = (statsBody exDb1 400000 1 10).summary.avgRam) := by
  have h1 : ∀ r ∈ [staleCpuRow], r.time ≤ (400000 : Int) - 300000 := by decide
  have h2 : ∀ r ∈ ([] : List MemRow), r.time ≤ (400000 : Int) - 300000 := by
    intro r hr
    exact absurd hr (List.not_mem_nil r)
  obtain ⟨ha, hb⟩ := stats_avg_ignores_stale exDb1 400000 1 10 [staleCpuRow] [] h1 h2
  exact ⟨h1, h2, ha, hb⟩

/-- C8: for every valid host and type, the /api/history response is the
most recent 20 observations selected time-descending and reversed:
it holds at most 20 points and its timestamps are non-decreasing. -/
theorem history_le20_ascending (db : Db) (h typ : String) (hne : h ≠ "") :
    (historyGET db (some h) typ).result = .ok (historyPoints db h typ) ∧
    (historyPoints db h typ).length ≤ 20 ∧
    List.Sorted (· ≤ ·) ((historyPoints db h typ).map (·.time)) := by
  refine ⟨?_, ?_, ?_⟩
  · simp only [historyGET]
    rw [if_neg (by simpa using hne)]
  · unfold historyPoints
    split
    · rw [List.length_map, List.length_reverse]
      exact List.length_take_le _ _
    · rw [List.length_map, List.length_reverse]
      exact List.length_take_le _ _
  · unfold historyPoints
    split
    · have hs : List.Pairwise cpuTimeDesc
          ((db.cpu.filter
            (fun r => r.host == h && r.cpu == "cpu-total")).insertionSort cpuTimeDesc) :=
        List.sorted_insertionSort _ _
      have ht := List.Pairwise.sublist (List.take_sublist 20 _) hs
      have hrev : List.Pairwise (fun a b : CpuRow => a.time ≤ b.time)
          (((db.cpu.filter
            (fun r => r.host == h && r.cpu == "cpu-total")).insertionSort
              cpuTimeDesc).take 20).reverse :=
        List.pairwise_reverse.mpr ht
      exact List.Pairwise.map _ (fun a b hab => hab)
        (List.Pairwise.map _ (fun a b hab => hab) hrev)
    · have hs : List.Pairwise memTimeDesc
          ((db.mem.filter (fun r => r.host == h)).insertionSort memTimeDesc) :=
        List.sorted_insertionSort _ _
      have ht := List.Pairwise.sublist (List.take_sublist 20 _) hs
      have hrev : List.Pairwise (fun a b : MemRow => a.time ≤ b.time)
          (((db.mem.filter (fun r => r.host == h)).insertionSort memTimeDesc).take 20).reverse :=
        List.pairwise_reverse.mpr ht
      exact List.Pairwise.map _ (fun a b hab => hab)
        (List.Pairwise.map _ (fun a b hab => hab) hrev)

theorem history_le20_ascending_witness :
    (historyGET exDb1 (some "alpha") "cpu").result =
      .ok (historyPoints exDb1 "alpha" "cpu") ∧
    (historyPoints exDb1 "alpha" "cpu").length ≤ 20 ∧
    List.Sorted (· ≤ ·) ((historyPoints exDb1 "alpha" "cpu").map (·.time)) :=
  history_le20_ascending exDb1 "alpha" "cpu" (by decide)

/-! ### Two-decimal formatting facts (claim C3) -/

theorem decDigit_ne_dot (n : Nat) : decDigit n ≠ '.' := by
  unfold decDigit
  split <;> decide

theorem decDigit_isDigit (n : Nat) : (decDigit n).isDigit := by
  unfold decDigit
  split <;> decide

theorem natCharsCore_no_dot (fuel n : Nat) : '.' ∉ natCharsCore fuel n := by
  induction fuel generalizing n with
  | zero => simp [natCharsCore]
  | succ f ih =>
      unfold natCharsCore
      split
      · intro hmem
        rw [List.mem_singleton] at hmem
        exact decDigit_ne_dot _ hmem.symm
      · intro hmem
        rw [List.mem_append] at hmem
        rcases hmem with hm | hm
        · exact ih _ hm
        · rw [List.mem_singleton] at hm
          exact decDigit_ne_dot _ hm.symm

theorem natChars_no_dot (n : Nat) : '.' ∉ natChars n := natCharsCore_no_dot _ _

/-- A string made of an integer part without a decimal point, a point
and exactly two decimal digits. -/
def twoDecimalStr (s : String) : Prop :=
  ∃ a c1 c2, s = a ++ "." ++ String.mk [c1, c2] ∧ c1.isDigit ∧ c2.isDigit ∧
    '.' ∉ a.data

theorem twoDecimalStr_fixed2OfNat (n : Nat) : twoDecimalStr (fixed2OfNat n) := by
  refine ⟨String.mk (natChars (n / 100)), decDigit (n % 100 / 10),
    decDigit (n % 100 % 10), rfl, decDigit_isDigit _, decDigit_isDigit _, ?_⟩
  show '.' ∉ natChars (n / 100)
  exact natChars_no_dot _

theorem twoDecimalStr_neg {s : String} (h : twoDecimalStr s) :
    twoDecimalStr ("-" ++ s) := by
  obtain ⟨a, c1, c2, rfl, h1, h2, h3⟩ := h
  refine ⟨"-" ++ a, c1, c2, ?_, h1, h2, ?_⟩
  · rw [← String.append_assoc, ← String.append_assoc]
  · rw [String.data_append]
    intro hmem
    rcases List.mem_append.mp hmem with hm | hm
    · rw [show ("-" : String).data = ['-'] from rfl, List.mem_singleton] at hm
      exact absurd hm (by decide)
    · exact h3 hm

theorem loadFmt_two_decimal_or_nan (v : PgVal) :
    twoDecimalStr (loadFmt v) ∨ loadFmt v = "NaN" := by
  cases v with
  | null => exact Or.inr rfl
  | num q =>
      left
      unfold loadFmt pgParseFloat jsToFixed2
      dsimp only
      split
      · exact twoDecimalStr_neg (twoDecimalStr_fixed2OfNat _)
      · exact twoDecimalStr_fixed2OfNat _

/-- A store whose only system row carries NULL load averages. -/
def loadNullDb : Db :=
  { network := [⟨"h1", "10.0.0.9", "aa:bb", 0⟩]
    cpu := []
    mem := []
    system := [⟨"h1", 0, .null, .null, .null, 0⟩] }

/-- C3 counterexample: with a NULL `load1/load5/load15` the paginated
/api/stats route renders `parseFloat(null).toFixed(2)`, i.e. the string
`"NaN"`, not the claimed `"0.00"` (and `"NaN"` has no two-decimal
shape).  Only the earlier non-paginated route variant (lines 81-93)
carries the `?.toFixed(2) || '0.00'` default. -/
theorem stats_load_null_yields_nan :
    ((statsBody loadNullDb 0 1 10).data.map (·.load)) =
      [some ("NaN", "NaN", "NaN")] ∧ ("NaN" : String) ≠ "0.00" := by
  constructor
  · rfl
  · decide

/-- C3 (amended): every rendered load triple comes from the latest
system row of the host; a numeric source value renders with exactly two
decimal places, while a NULL source value renders as the string `"NaN"`
(not `"0.00"`). -/
theorem stats_load_two_decimal_or_nan (db : Db) (now : Int) (page limit : Nat)
    (s : HostSummary) (hs : s ∈ (statsBody db now page limit).data)
    (l1 l5 l15 : String) (hl : s.load = some (l1, l5, l15)) :
    ∃ x ∈ sysResD db page limit, x.host = s.hostname ∧
      l1 = loadFmt x.load1 ∧ l5 = loadFmt x.load5 ∧ l15 = loadFmt x.load15 ∧
      ((twoDecimalStr l1 ∨ l1 = "NaN") ∧ (twoDecimalStr l5 ∨ l5 = "NaN") ∧
        (twoDecimalStr l15 ∨ l15 = "NaN")) ∧
      (x.load1 = .null → l1 = "NaN") ∧ (x.load5 = .null → l5 = "NaN") ∧
      (x.load15 = .null → l15 = "NaN") := by
  rw [statsBody_data] at hs
  obtain ⟨r, _, rfl⟩ := List.mem_map.mp hs
  unfold buildHostSummary at hl
  dsimp only at hl
  rw [Option.map_eq_some'] at hl
  obtain ⟨x, hx, hval⟩ := hl
  have hx1 : l1 = loadFmt x.load1 ∧ l5 = loadFmt x.load5 ∧ l15 = loadFmt x.load15 := by
    have := hval
    simp only [Prod.mk.injEq] at this
    exact ⟨this.1.symm, this.2.1.symm, this.2.2.symm⟩
  obtain ⟨e1, e5, e15⟩ := hx1
  subst e1
  subst e5
  subst e15
  have hxmem : x ∈ sysResD db page limit := List.mem_of_find?_eq_some hx
  have hxhost : x.host = r.host := by
    have := List.find?_some hx
    simpa using this
  refine ⟨x, hxmem, hxhost, rfl, rfl, rfl,
    ⟨loadFmt_two_decimal_or_nan _, loadFmt_two_decimal_or_nan _,
      loadFmt_two_decimal_or_nan _⟩, ?_, ?_, ?_⟩
  · intro hnull
    rw [hnull]
    exact rfl
  · intro hnull
    rw [hnull]
    exact rfl
  · intro hnull
    rw [hnull]
    exact rfl

/-- The merged summary for `loadNullDb`'s single host. -/
def loadNullSummary : HostSummary :=
  buildHostSummary 0 (cpuResD loadNullDb 1 10) (memResD loadNullDb 1 10)
    (sysResD loadNullDb 1 10) ⟨"h1", "10.0.0.9", "aa:bb", 0⟩

theorem stats_load_two_decimal_or_nan_witness :
    (loadNullSummary ∈ (statsBody loadNullDb 0 1 10).data) ∧
    (loadNullSummary.load = some ("NaN", "NaN", "NaN")) ∧
    (∃ x ∈ sysResD loadNullDb 1 10, x.host = loadNullSummary.hostname ∧
      "NaN" = loadFmt x.load1 ∧ "NaN" = loadFmt x.load5 ∧
      "NaN" = loadFmt x.load15 ∧
      ((twoDecimalStr "NaN" ∨ ("NaN" : String) = "NaN") ∧
        (twoDecimalStr "NaN" ∨ ("NaN" : String) = "NaN") ∧
        (twoDecimalStr "NaN" ∨ ("NaN" : String) = "NaN")) ∧
      (x.load1 = .null → ("NaN" : String) = "NaN") ∧
      (x.load5 = .null → ("NaN" : String) = "NaN") ∧
      (x.load15 = .null → ("NaN" : String) = "NaN")) := by
  have hmem : loadNullSummary ∈ (statsBody loadNullDb 0 1 10).data := by
    rw [show (statsBody loadNullDb 0 1 10).data = [loadNullSummary] from rfl]
    exact List.mem_singleton_self _
  exact ⟨hmem, rfl,
    stats_load_two_decimal_or_nan loadNullDb 0 1 10 loadNullSummary hmem
      "NaN" "NaN" "NaN" rfl⟩

/-- C1 (spec-modelled): after a qualifying page-1/limit-10 request that
misses and stores at time `now`, a second qualifying request within the
15-second TTL returns the cached payload verbatim with no store access
and leaves the cache unchanged; a qualifying request at or beyond the
TTL performs a fresh store access and stores the new result. -/
theorem cache_hit_within_ttl_then_refresh (db db2 db3 : Db) (st0 : CacheState)
    (now t1 t2 : Int)
    (hmiss : (cachedStatsGET db st0 now 1 10).storeAccessed = true)
    (h1 : t1 - now < 15000) (h2 : 15000 ≤ t2 - now) :
    ((cachedStatsGET db2 (cachedStatsGET db st0 now 1 10).state t1 1 10).payload
      = (cachedStatsGET db st0 now 1 10).payload) ∧
    ((cachedStatsGET db2 (cachedStatsGET db st0 now 1 10).state t1 1 10).storeAccessed
      = false) ∧
    ((cachedStatsGET db2 (cachedStatsGET db st0 now 1 10).state t1 1 10).state
      = (cachedStatsGET db st0 now 1 10).state) ∧
    ((cachedStatsGET db3
        (cachedStatsGET db2 (cachedStatsGET db st0 now 1 10).state t1 1 10).state
        t2 1 10).storeAccessed = true) ∧
    ((cachedStatsGET db3
        (cachedStatsGET db2 (cachedStatsGET db st0 now 1 10).state t1 1 10).state
        t2 1 10).payload = statsBody db3 t2 1 10) ∧
    ((cachedStatsGET db3
        (cachedStatsGET db2 (cachedStatsGET db st0 now 1 10).state t1 1 10).state
        t2 1 10).state.slot = some (statsBody db3 t2 1 10, t2)) := by
  have hcond : ((1 : Nat) = 1 ∧ (10 : Nat) = 10) := ⟨rfl, rfl⟩
  have key1 : (cachedStatsGET db st0 now 1 10).state =
      ⟨some ((cachedStatsGET db st0 now 1 10).payload, now)⟩ := by
    unfold cachedStatsGET at hmiss ⊢
    rw [if_pos hcond] at hmiss ⊢
    cases hslot : st0.slot with
    | none => rfl
    | some pt =>
        obtain ⟨p, t⟩ := pt
        rw [hslot] at hmiss
        dsimp only at hmiss ⊢
        by_cases hexp : now - t < CACHE_TTL
        · rw [if_pos hexp] at hmiss
          simp at hmiss
        · rw [if_neg hexp] at hmiss ⊢
  have key2 : cachedStatsGET db2 (cachedStatsGET db st0 now 1 10).state t1 1 10 =
      { payload := (cachedStatsGET db st0 now 1 10).payload,
        state := (cachedStatsGET db st0 now 1 10).state,
        storeAccessed := false } := by
    rw [key1]
    generalize (cachedStatsGET db st0 now 1 10).payload = p1
    unfold cachedStatsGET
    rw [if_pos hcond]
    dsimp only
    rw [if_pos (show t1 - now < CACHE_TTL by unfold CACHE_TTL; omega)]
  have key3 : cachedStatsGET db3
      (cachedStatsGET db2 (cachedStatsGET db st0 now 1 10).state t1 1 10).state
      t2 1 10 =
      { payload := statsBody db3 t2 1 10,
        state := ⟨some (statsBody db3 t2 1 10, t2)⟩,
        storeAccessed := true } := by
    rw [key2]
    dsimp only
    rw [key1]
    generalize (cachedStatsGET db st0 now 1 10).payload = p1
    unfold cachedStatsGET
    rw [if_pos hcond]
    dsimp only
    rw [if_neg (show ¬ t2 - now < CACHE_TTL by unfold CACHE_TTL; omega)]
  refine ⟨?_, ?_, ?_, ?_, ?_, ?_⟩
  · rw [key2]
  · rw [key2]
  · rw [key2]
  · rw [key3]
  · rw [key3]
  · rw [key3]

theorem cache_hit_within_ttl_then_refresh_witness :
    ((cachedStatsGET exDb1 (cachedStatsGET exDb1 ⟨none⟩ 0 1 10).state 1000 1 10).payload
      = (cachedStatsGET exDb1 (⟨none⟩ : CacheState) 0 1 10).payload) ∧
    ((cachedStatsGET exDb1 (cachedStatsGET exDb1 ⟨none⟩ 0 1 10).state 1000 1 10).storeAccessed
      = false) ∧
    ((cachedStatsGET exDb1 (cachedStatsGET exDb1 ⟨none⟩ 0 1 10).state 1000 1 10).state
      = (cachedStatsGET exDb1 (⟨none⟩ : CacheState) 0 1 10).state) ∧
    ((cachedStatsGET exDb1
        (cachedStatsGET exDb1 (cachedStatsGET exDb1 ⟨none⟩ 0 1 10).state 1000 1 10).state
        15000 1 10).storeAccessed = true) ∧
    ((cachedStatsGET exDb1
        (cachedStatsGET exDb1 (cachedStatsGET exDb1 ⟨none⟩ 0 1 10).state 1000 1 10).state
        15000 1 10).payload = statsBody exDb1 15000 1 10) ∧
    ((cachedStatsGET exDb1
        (cachedStatsGET exDb1 (cachedStatsGET exDb1 ⟨none⟩ 0 1 10).state 1000 1 10).state
        15000 1 10).state.slot = some (statsBody exDb1 15000 1 10, 15000)) :=
  cache_hit_within_ttl_then_refresh exDb1 exDb1 exDb1 ⟨none⟩ 0 1000 15000
    rfl (by decide) (by decide)
